import Mathlib

/-!
Shallow embedding of the `zombiezen/ftp` Go package (files `client.go` and
`code.go`) and verification of its specification claims.

Go strings are modelled as lists of characters (`Str`).  Go's `strconv.Atoi`
and `strconv.Itoa` are modelled by `atoi?` and `itoa`; `int` division in Go
truncates toward zero, which is `Int.tdiv`.  The line-oriented control
connection (`textproto.Conn.ReadLine`) is modelled as a list of framed lines
that the reader consumes from the front; the remaining lines are returned so
that the number of replies consumed is observable.
-/

/-- Strings are modelled at the character level, as in Go's `line[4:]` etc. -/
abbrev Str := List Char

/-- Coercion helper from Lean string literals. -/
def strOf (s : String) : Str := s.toList

/-! ### Decimal numerals: `strconv.Atoi` and `strconv.Itoa` -/

/-- Test for an ASCII decimal digit, as in Go's `ch < '0' || ch > '9'`. -/
def isDigitCh (c : Char) : Bool := '0' ≤ c && c ≤ '9'

/-- Value of a decimal digit character, `none` for non-digits. -/
def digitVal? (c : Char) : Option Nat :=
  if isDigitCh c then some (c.toNat - '0'.toNat) else none

/-- Digit-accumulation loop of Go's `strconv.Atoi`: `n = n*10 + (ch - '0')`. -/
def parseDigitsAux (acc : Nat) : Str → Option Nat
  | [] => some acc
  | c :: rest =>
    match digitVal? c with
    | some d => parseDigitsAux (acc * 10 + d) rest
    | none => none

/-- Parse a nonempty all-digit string; `none` on empty or non-digit input. -/
def parseDigits : Str → Option Nat
  | [] => none
  | c :: rest => parseDigitsAux 0 (c :: rest)

/-- Largest Go `int` (64-bit) value, `1<<63 - 1`. -/
def maxInt : Nat := 2 ^ 63 - 1

/-- Go's `strconv.Atoi`: optional sign, then decimal digits, failing on
empty input, non-digit characters, and 64-bit overflow (`ErrRange`). -/
def atoi? (s : Str) : Option Int :=
  match s with
  | [] => none
  | c :: rest =>
    if c = '-' then
      match parseDigits rest with
      | none => none
      | some n => if n ≤ 2 ^ 63 then some (-(n : Int)) else none
    else if c = '+' then
      match parseDigits rest with
      | none => none
      | some n => if n ≤ maxInt then some (n : Int) else none
    else
      match parseDigits (c :: rest) with
      | none => none
      | some n => if n ≤ maxInt then some (n : Int) else none

/-- Go's `strconv.Atoi` with the error ignored, as in `parsePasvReply`:
syntax errors yield `0`, positive overflow yields the clamped `maxInt`. -/
def atoiVal (s : Str) : Nat :=
  match parseDigits s with
  | none => 0
  | some n => min n maxInt

/-- Big-endian decimal digits of `n`, with explicit fuel (the fuel `n + 1`
used by `natToStr` always suffices, so this computes ordinary decimals). -/
def natDigitsAux : Nat → Nat → List Char → List Char
  | 0, _, acc => acc
  | fuel + 1, n, acc =>
    if n < 10 then Nat.digitChar n :: acc
    else natDigitsAux fuel (n / 10) (Nat.digitChar (n % 10) :: acc)

/-- Decimal numeral of a natural number, e.g. `natToStr 0 = "0"`. -/
def natToStr (n : Nat) : Str := natDigitsAux (n + 1) n []

/-- Go's `strconv.Itoa` on `int` values. -/
def itoa (n : Int) : Str :=
  if n < 0 then '-' :: natToStr n.natAbs else natToStr n.toNat

/-! ### Reply model (`code.go`) -/

namespace Code

/-- Source: `func (code Code) Preliminary() bool { return code/100 == 1 }`. -/
def Preliminary (code : Int) : Bool := code.tdiv 100 == 1

/-- Source: `Positive` tests `firstDigit == 1 || firstDigit == 2 || firstDigit == 3`. -/
def Positive (code : Int) : Bool :=
  let firstDigit := code.tdiv 100
  firstDigit == 1 || firstDigit == 2 || firstDigit == 3

/-- Source: `Complete` tests `firstDigit == 2 || firstDigit == 4 || firstDigit == 5`. -/
def Complete (code : Int) : Bool :=
  let firstDigit := code.tdiv 100
  firstDigit == 2 || firstDigit == 4 || firstDigit == 5

/-- Source: `func (code Code) PositiveComplete() bool { return code/100 == 2 }`. -/
def PositiveComplete (code : Int) : Bool := code.tdiv 100 == 2

/-- Source: `func (code Code) Temporary() bool { return code/100 == 4 }`. -/
def Temporary (code : Int) : Bool := code.tdiv 100 == 4

end Code

/-- Source: `type Reply struct { Code; Msg string }`. -/
structure Reply where
  code : Int
  msg : Str
deriving DecidableEq, Repr

/-- Promoted method `reply.Positive()` on the embedded `Code`. -/
def Reply.positive (r : Reply) : Bool := Code.Positive r.code

/-- Promoted method `reply.PositiveComplete()` on the embedded `Code`. -/
def Reply.positiveComplete (r : Reply) : Bool := Code.PositiveComplete r.code

/-! ### Splitting and joining (`strings.Split`, `strings.Join`) -/

/-- Go's `strings.Split(s, sep)` for a one-character separator. -/
def splitOnChar (sep : Char) : Str → List Str
  | [] => [[]]
  | c :: rest =>
    if c = sep then [] :: splitOnChar sep rest
    else
      match splitOnChar sep rest with
      | [] => [[c]]
      | l :: ls => (c :: l) :: ls

/-- Go's `strings.Join(elems, sep)`. -/
def joinSep (sep : Str) : List Str → Str
  | [] => []
  | [l] => l
  | l :: l' :: ls => l ++ sep ++ joinSep sep (l' :: ls)

/-- Rewrite of the last element as done by
`lines[len(lines)-1] = r.Code.String() + " " + lines[len(lines)-1]`. -/
def markLast (c : Str) : List Str → List Str
  | [] => []
  | [l] => [c ++ ' ' :: l]
  | l :: l' :: ls => l :: markLast c (l' :: ls)

/-- Source: `func (r Reply) String() string` — single-line replies render as
`"<code> <msg>"`; multi-line replies prefix the first line with `"<code>-"`,
the last with `"<code> "`, and join the lines with CRLF. -/
def replyString (r : Reply) : Str :=
  let c := itoa r.code
  let lines := splitOnChar '\n' r.msg
  if 1 < lines.length then
    joinSep ['\r', '\n']
      (match markLast c lines with
       | [] => []
       | l :: ls => (c ++ '-' :: l) :: ls)
  else c ++ ' ' :: r.msg

/-- Line framing of the control connection: split wire text on CRLF.  This is
how `textproto.Conn.ReadLine` cuts the byte stream produced by `replyString`
into lines. -/
def splitCRLF : Str → List Str
  | [] => [[]]
  | [c] => [[c]]
  | c1 :: c2 :: rest =>
    if c1 = '\r' ∧ c2 = '\n' then [] :: splitCRLF rest
    else
      match splitCRLF (c2 :: rest) with
      | [] => [[c1]]
      | l :: ls => (c1 :: l) :: ls

/-! ### The reply reader (`Client.response`) -/

/-- Failure modes of the client core: transport failure of the line source,
the two malformed-reply errors of `Client.response`, a `strconv` parse error,
and the malformed-reply errors of the PASV/EPSV decoders. -/
inductive FtpError where
  | readEOF
  | shortLine
  | atoiErr
  | badSep
  | pasvNoPort
  | epsvNoPort
deriving DecidableEq, Repr

/-- Continuation-line loop of `Client.response`: keep reading lines until one
starts with `endPrefix = strconv.Itoa(code) + " "`; that line's remainder is
the final message line, all other lines are appended unmodified.  Returns the
collected lines and the unconsumed part of the line source. -/
def readMulti (mark : Str) : List Str → Except FtpError (List Str) × List Str
  | [] => (.error .readEOF, [])
  | line :: rest =>
    if mark.isPrefixOf line then (.ok [line.drop mark.length], rest)
    else
      match readMulti mark rest with
      | (.ok ls, rest') => (.ok (line :: ls), rest')
      | (.error e, rest') => (.error e, rest')

/-- Source: `func (client *Client) response() (Reply, error)` — reads one
reply from the framed line source and returns it together with the lines not
consumed. -/
def response (input : List Str) : Except FtpError Reply × List Str :=
  match input with
  | [] => (.error .readEOF, [])
  | line :: rest =>
    if line.length < 4 then (.error .shortLine, rest)
    else
      match atoi? (line.take 3) with
      | none => (.error .atoiErr, rest)
      | some code =>
        if (line.drop 3).head? = some '-' then
          match readMulti (itoa code ++ [' ']) rest with
          | (.ok msgLines, rest') =>
              (.ok ⟨code, joinSep ['\n'] (line.drop 4 :: msgLines)⟩, rest')
          | (.error e, rest') => (.error e, rest')
        else if (line.drop 3).head? = some ' ' then
          (.ok ⟨code, line.drop 4⟩, rest)
        else (.error .badSep, rest)

/-! ### PASV decoding (`parsePasvReply`) -/

/-- Maximal run of leading decimal digits, and the remaining input. -/
def takeDigits : Str → Str × Str
  | [] => ([], [])
  | c :: rest =>
    if isDigitCh c then
      match takeDigits rest with
      | (d, r) => (c :: d, r)
    else ([], c :: rest)

/-- Anchored match of `k` comma-separated nonempty digit runs, the shape of
the regular expression `([0-9]+),([0-9]+),([0-9]+),([0-9]+),([0-9]+),([0-9]+)`
at a fixed start position.  Greedy matching of `[0-9]+` followed by `,` is
deterministic (a shorter run would leave a digit where the comma is
required), so this captures Go's leftmost-first semantics at one position. -/
def matchGroups : Nat → Str → Option (List Str)
  | 0, _ => none
  | 1, s =>
    let (d, _) := takeDigits s
    if d = [] then none else some [d]
  | k + 2, s =>
    let (d, r) := takeDigits s
    if d = [] then none
    else
      match r with
      | [] => none
      | c :: r' =>
        if c = ',' then (matchGroups (k + 1) r').map (fun gs => d :: gs)
        else none

/-- Leftmost match of `pasvRegexp`: Go's `FindStringSubmatch` scans start
positions left to right and returns the six captured groups of the first
position where the pattern matches. -/
def findPasv : Str → Option (List Str)
  | [] => none
  | c :: rest =>
    match matchGroups 6 (c :: rest) with
    | some gs => some gs
    | none => findPasv rest

/-- Model of `net.TCPAddr`: the IPv4 address bytes and the port. -/
structure TCPAddr where
  ip : List Nat
  port : Int
deriving DecidableEq, Repr

/-- One entry of `numbers[i] = byte(n)` where `n, _ = strconv.Atoi(s)`: the
`Atoi` error is ignored, and the Go `byte` conversion truncates mod 256. -/
def pasvByte (s : Str) : Nat := atoiVal s % 256

/-- Source: `func parsePasvReply(msg string) (*net.TCPAddr, error)`.  The
element `numbers[0]` comes from the full match (whose `Atoi` fails, giving 0)
and is unused; `numbers[1:5]` is the IP, and the port is
`int(numbers[5])<<8 | int(numbers[6])`. -/
def parsePasvReply (msg : Str) : Except FtpError TCPAddr :=
  match findPasv msg with
  | none => .error .pasvNoPort
  | some gs =>
    let numbers : List Nat := (joinSep [','] gs :: gs).map pasvByte
    .ok { ip := (numbers.drop 1).take 4,
          port := ((numbers.getD 5 0) <<< 8 ||| numbers.getD 6 0 : Nat) }

/-! ### EPSV decoding (`parseEpsvReply`) -/

/-- Literal `epsvStart = "(|||"`. -/
def epsvStart : Str := ['(', '|', '|', '|']

/-- Literal `epsvEnd = "|)"`. -/
def epsvEnd : Str := ['|', ')']

/-- Go's `strings.LastIndex`: index of the last occurrence of `pat`, `none`
when absent. -/
def lastIndexOf (pat s : Str) : Option Nat :=
  ((List.range (s.length + 1)).filter (fun i => pat.isPrefixOf (s.drop i))).getLast?

/-- Source: `func parseEpsvReply(msg string) (port int, err error)`. -/
def parseEpsvReply (msg : Str) : Except FtpError Int :=
  match lastIndexOf epsvStart msg with
  | none => .error .epsvNoPort
  | some s0 =>
    let start := s0 + epsvStart.length
    match lastIndexOf epsvEnd msg with
    | none => .error .epsvNoPort
    | some e =>
      if e ≤ start then .error .epsvNoPort
      else
        match atoi? ((msg.drop start).take (e - start)) with
        | none => .error .atoiErr
        | some n => .ok n

/-- EPSV branch of `obtainPassiveAddress`: the address combines the IP of the
control connection's remote endpoint with the port decoded from the reply
body (the body never supplies the host). -/
def epsvAddr (remoteIP : List Nat) (msg : Str) : Except FtpError TCPAddr :=
  match parseEpsvReply msg with
  | .error e => .error e
  | .ok port => .ok { ip := remoteIP, port := port }

/-! ### Transfer sequencing (`Client.transfer`, `transferConn.Close`) -/

/-- Abstract error value produced by the transport collaborator. -/
structure IOErr where
  ioId : Nat
deriving DecidableEq, Repr

/-- Error returned by `Client.transfer`: a transport/parse failure or a
`Reply` used as an error value. -/
inductive TransferErr where
  | io (e : FtpError)
  | reply (r : Reply)
deriving DecidableEq, Repr

/-- Results of the three control-channel round trips that `Client.transfer`
performs, supplied by the collaborators: the `TYPE` command reply, the
outcome of `openPassive`, and the transfer command reply. -/
structure TransferEnv where
  typeReply : Except FtpError Reply
  passiveOpen : Except FtpError Unit
  cmdReply : Except FtpError Reply

/-- Observable outcome of `Client.transfer`: the returned value or error,
whether the passive data socket was opened, and whether it was closed again
(by the deferred `conn.Close()` that runs when `err != nil`). -/
structure TransferTrace where
  result : Except TransferErr Unit
  dataOpened : Bool
  dataClosed : Bool

/-- Source: `func (client *Client) transfer(command, dataType string)`.
The `TYPE` reply must be positive-complete; after `openPassive` succeeds a
deferred close of the data connection runs whenever the function returns a
non-nil error; the transfer command reply must be positive. -/
def transfer (env : TransferEnv) : TransferTrace :=
  match env.typeReply with
  | .error e => ⟨.error (.io e), false, false⟩
  | .ok reply =>
    if !reply.positiveComplete then ⟨.error (.reply reply), false, false⟩
    else
      match env.passiveOpen with
      | .error e => ⟨.error (.io e), false, false⟩
      | .ok _ =>
        match env.cmdReply with
        | .error e => ⟨.error (.io e), true, true⟩
        | .ok r2 =>
          if !r2.positive then ⟨.error (.reply r2), true, true⟩
          else ⟨.ok (), true, false⟩

/-- Error returned by `transferConn.Close`: the data-socket close failure,
a transport/parse failure of the confirmation read, or a non-positive-complete
confirmation `Reply`. -/
inductive CloseErr where
  | socket (e : IOErr)
  | proto (e : FtpError)
  | reply (r : Reply)
deriving DecidableEq, Repr

/-- Source: `func (conn transferConn) Close() error`.  `closeResult` is the
outcome of `conn.ReadWriteCloser.Close()`; `input` is the control-channel
line source.  Returns the close outcome and the unconsumed lines, so the
number of confirmation replies read is observable. -/
def transferConnClose (closeResult : Except IOErr Unit) (input : List Str) :
    Except CloseErr Unit × List Str :=
  match closeResult with
  | .error e => (.error (.socket e), input)
  | .ok _ =>
    match response input with
    | (.error e, rest) => (.error (.proto e), rest)
    | (.ok reply, rest) =>
      if !reply.positiveComplete then (.error (.reply reply), rest)
      else (.ok (), rest)

/-! ### Arithmetic and numeral lemmas -/

/-- Bitwise or of a byte into a shifted value is plain addition. -/
theorem lor_byte (b a : Nat) (h : a < 256) : b <<< 8 ||| a = b * 256 + a := by
  have h2 : a < 2 ^ 8 := by norm_num; omega
  have e1 : b <<< 8 = 2 ^ 8 * b := by rw [Nat.shiftLeft_eq_mul_pow, Nat.mul_comm]
  have e2 : b * 256 + a = 2 ^ 8 * b + a := by rw [Nat.mul_comm]; norm_num
  rw [e1, e2]
  apply Nat.eq_of_testBit_eq
  intro i
  rw [Nat.testBit_lor, Nat.testBit_mul_pow_two_add b h2 i, Nat.testBit_mul_pow_two]
  by_cases hi : i < 8
  · rw [if_pos hi]
    have hlt : ¬ (i ≥ 8) := by omega
    simp [hlt]
  · rw [if_neg hi]
    have hge : i ≥ 8 := by omega
    have ha : a.testBit i = false :=
      Nat.testBit_lt_two_pow (lt_of_lt_of_le h2 (Nat.pow_le_pow_right (by norm_num) hge))
    simp [hge, ha]

/-- Parsing a digit character recovers its value. -/
theorem digitVal?_digitChar : ∀ d : Nat, d < 10 → digitVal? (Nat.digitChar d) = some d := by
  decide

/-- Digit characters are not signs, newlines or spaces. -/
theorem digitChar_ne : ∀ d : Nat, d < 10 →
    Nat.digitChar d ≠ '-' ∧ Nat.digitChar d ≠ '+' ∧ Nat.digitChar d ≠ '\n' := by
  decide

/-- With at least one unit of fuel, a one-digit number renders directly. -/
theorem natDigitsAux_small (fuel k : Nat) (acc : List Char) (hk : k < 10)
    (hf : 1 ≤ fuel) : natDigitsAux fuel k acc = Nat.digitChar k :: acc := by
  cases fuel with
  | zero => omega
  | succ f => rw [natDigitsAux, if_pos hk]

/-- With at least two units of fuel, a two-digit number renders directly. -/
theorem natDigitsAux_two (fuel k : Nat) (acc : List Char) (h1 : 10 ≤ k)
    (h2 : k ≤ 99) (hf : 2 ≤ fuel) :
    natDigitsAux fuel k acc = Nat.digitChar (k / 10) :: Nat.digitChar (k % 10) :: acc := by
  cases fuel with
  | zero => omega
  | succ f =>
    rw [natDigitsAux, if_neg (by omega)]
    exact natDigitsAux_small f (k / 10) _ (by omega) (by omega)

/-- Three-digit numbers render to their three digit characters. -/
theorem natToStr_three (n : Nat) (h1 : 100 ≤ n) (h2 : n ≤ 999) :
    natToStr n =
      [Nat.digitChar (n / 100), Nat.digitChar (n / 10 % 10), Nat.digitChar (n % 10)] := by
  rw [natToStr, natDigitsAux, if_neg (by omega)]
  rw [natDigitsAux_two n (n / 10) _ (by omega) (by omega) (by omega)]
  rw [Nat.div_div_eq_div_mul]

/-- Rendering of a three-digit reply code. -/
theorem itoa_eq_three (code : Int) (h1 : 100 ≤ code) (h2 : code ≤ 999) :
    itoa code =
      [Nat.digitChar (code.toNat / 100), Nat.digitChar (code.toNat / 10 % 10),
       Nat.digitChar (code.toNat % 10)] := by
  rw [itoa, if_neg (by omega)]
  exact natToStr_three code.toNat (by omega) (by omega)

/-- A three-digit reply code renders to three characters. -/
theorem itoa_length (code : Int) (h1 : 100 ≤ code) (h2 : code ≤ 999) :
    (itoa code).length = 3 := by
  rw [itoa_eq_three code h1 h2]; rfl

/-- A three-digit reply code renders without newline characters. -/
theorem itoa_no_nl (code : Int) (h1 : 100 ≤ code) (h2 : code ≤ 999) :
    '\n' ∉ itoa code := by
  rw [itoa_eq_three code h1 h2]
  intro hmem
  rw [List.mem_cons, List.mem_cons, List.mem_cons] at hmem
  rcases hmem with h | h | h | h
  · exact (digitChar_ne (code.toNat / 100) (by omega)).2.2 h.symm
  · exact (digitChar_ne (code.toNat / 10 % 10) (by omega)).2.2 h.symm
  · exact (digitChar_ne (code.toNat % 10) (by omega)).2.2 h.symm
  · exact List.not_mem_nil _ h

/-- Reading back the rendering of a three-digit reply code. -/
theorem atoi?_itoa (code : Int) (h1 : 100 ≤ code) (h2 : code ≤ 999) :
    atoi? (itoa code) = some code := by
  rw [itoa_eq_three code h1 h2]
  have ht1 : 100 ≤ code.toNat := by omega
  have ht2 : code.toNat ≤ 999 := by omega
  have hd1 : code.toNat / 100 < 10 := by omega
  have hd2 : code.toNat / 10 % 10 < 10 := by omega
  have hd3 : code.toNat % 10 < 10 := by omega
  have e1 := digitVal?_digitChar _ hd1
  have e2 := digitVal?_digitChar _ hd2
  have e3 := digitVal?_digitChar _ hd3
  rw [atoi?, if_neg (digitChar_ne _ hd1).1, if_neg (digitChar_ne _ hd1).2.1]
  simp only [parseDigits, parseDigitsAux, e1, e2, e3]
  have hv : ((0 * 10 + code.toNat / 100) * 10 + code.toNat / 10 % 10) * 10 + code.toNat % 10
      = code.toNat := by omega
  rw [hv]
  have hmax : code.toNat ≤ maxInt := by
    have hpow : (2 : Nat) ^ 63 = 9223372036854775808 := by norm_num
    simp only [maxInt, hpow]
    omega
  rw [if_pos hmax]
  rw [Int.toNat_of_nonneg (by omega : (0 : Int) ≤ code)]

/-! ### Splitting and joining lemmas -/

/-- Splitting never produces an empty list of pieces. -/
theorem splitOnChar_ne_nil (a : Char) (s : Str) : splitOnChar a s ≠ [] := by
  induction s with
  | nil => simp [splitOnChar]
  | cons c rest ih =>
    rw [splitOnChar]
    by_cases h : c = a
    · simp [h]
    · rw [if_neg h]
      rcases hs : splitOnChar a rest with _ | ⟨l, ls⟩
      · exact absurd hs ih
      · simp

/-- Pieces of a split do not contain the separator. -/
theorem mem_splitOnChar_not_sep (a : Char) (s : Str) :
    ∀ l ∈ splitOnChar a s, a ∉ l := by
  induction s with
  | nil =>
    intro l hl
    rw [splitOnChar] at hl
    rcases List.mem_cons.1 hl with h1 | h1
    · subst h1; simp
    · exact absurd h1 (List.not_mem_nil l)
  | cons c rest ih =>
    intro l hl
    rw [splitOnChar] at hl
    by_cases h : c = a
    · rw [if_pos h] at hl
      rcases List.mem_cons.1 hl with h1 | h1
      · subst h1; simp
      · exact ih l h1
    · rw [if_neg h] at hl
      rcases hs : splitOnChar a rest with _ | ⟨l0, ls⟩
      · exact absurd hs (splitOnChar_ne_nil a rest)
      · rw [hs] at hl
        simp only [] at hl
        rcases List.mem_cons.1 hl with h1 | h1
        · subst h1
          intro hmem
          rcases List.mem_cons.1 hmem with h2 | h2
          · exact h h2.symm
          · exact ih l0 (by rw [hs]; exact List.mem_cons_self l0 ls) h2
        · exact ih l (by rw [hs]; exact List.mem_cons_of_mem l0 h1)

/-- A string without the separator splits into the single piece itself. -/
theorem splitOnChar_of_not_mem (a : Char) (s : Str) (h : a ∉ s) :
    splitOnChar a s = [s] := by
  induction s with
  | nil => rfl
  | cons c rest ih =>
    rw [List.mem_cons] at h
    push_neg at h
    rw [splitOnChar, if_neg (fun hc => h.1 hc.symm), ih h.2]

/-- A string containing the separator splits into at least two pieces. -/
theorem splitOnChar_length_two (a : Char) (s : Str) (h : a ∈ s) :
    1 < (splitOnChar a s).length := by
  induction s with
  | nil => exact absurd h (List.not_mem_nil a)
  | cons c rest ih =>
    rw [splitOnChar]
    by_cases hc : c = a
    · rw [if_pos hc]
      have hpos : 0 < (splitOnChar a rest).length :=
        List.length_pos.2 (splitOnChar_ne_nil a rest)
      rw [List.length_cons]
      omega
    · rw [if_neg hc]
      have hmem : a ∈ rest := by
        rcases List.mem_cons.1 h with h1 | h1
        · exact absurd h1.symm hc
        · exact h1
      have ihh := ih hmem
      rcases hs : splitOnChar a rest with _ | ⟨l0, ls⟩
      · exact absurd hs (splitOnChar_ne_nil a rest)
      · rw [hs] at ihh
        show 1 < ((c :: l0) :: ls).length
        simp only [List.length_cons] at ihh ⊢
        omega

/-- Unfolding equation for `joinSep` on a list with two or more pieces. -/
theorem joinSep_cons_cons (sep l l' : Str) (ls : List Str) :
    joinSep sep (l :: l' :: ls) = l ++ sep ++ joinSep sep (l' :: ls) := rfl

/-- Joining undoes splitting. -/
theorem joinSep_splitOnChar (a : Char) (s : Str) :
    joinSep [a] (splitOnChar a s) = s := by
  induction s with
  | nil => rfl
  | cons c rest ih =>
    rw [splitOnChar]
    by_cases hc : c = a
    · rw [if_pos hc]
      rcases hs : splitOnChar a rest with _ | ⟨l0, ls⟩
      · exact absurd hs (splitOnChar_ne_nil a rest)
      · rw [hs] at ih
        rw [joinSep_cons_cons, ih]
        simp [hc]
    · rw [if_neg hc]
      rcases hs : splitOnChar a rest with _ | ⟨l0, ls⟩
      · exact absurd hs (splitOnChar_ne_nil a rest)
      · rw [hs] at ih
        show joinSep [a] ((c :: l0) :: ls) = c :: rest
        cases ls with
        | nil =>
          show c :: l0 = c :: rest
          rw [show joinSep [a] [l0] = l0 from rfl] at ih
          rw [ih]
        | cons l1 ls' =>
          rw [joinSep_cons_cons] at ih ⊢
          rw [← ih]
          simp

/-- A newline-free string is a single CRLF-framed line. -/
theorem splitCRLF_no_nl (l : Str) (h : '\n' ∉ l) : splitCRLF l = [l] := by
  induction l with
  | nil => rfl
  | cons c rest ih =>
    cases rest with
    | nil => rfl
    | cons c2 rest2 =>
      rw [List.mem_cons] at h
      push_neg at h
      have h2 : '\n' ∉ c2 :: rest2 := h.2
      have hne2 : '\n' ≠ c2 := by
        intro he
        exact h2 (List.mem_cons.2 (Or.inl he))
      rw [splitCRLF, if_neg (fun hcc => hne2 hcc.2.symm), ih h2]

/-- Peeling one newline-free line off a CRLF-framed stream. -/
theorem splitCRLF_cons_sep (l rest : Str) (h : '\n' ∉ l) :
    splitCRLF (l ++ '\r' :: '\n' :: rest) = l :: splitCRLF rest := by
  induction l with
  | nil =>
    show splitCRLF ('\r' :: '\n' :: rest) = [] :: splitCRLF rest
    rw [splitCRLF, if_pos ⟨rfl, rfl⟩]
  | cons c l' ih =>
    rw [List.mem_cons] at h
    push_neg at h
    cases l' with
    | nil =>
      show splitCRLF (c :: '\r' :: '\n' :: rest) = [c] :: splitCRLF rest
      rw [splitCRLF, if_neg (fun hcc => absurd hcc.2 (by decide))]
      have ihh := ih h.2
      rw [List.nil_append] at ihh
      rw [ihh]
    | cons c2 l'' =>
      show splitCRLF (c :: c2 :: (l'' ++ '\r' :: '\n' :: rest))
          = (c :: c2 :: l'') :: splitCRLF rest
      have hne2 : '\n' ≠ c2 := by
        intro he
        exact h.2 (List.mem_cons.2 (Or.inl he))
      rw [splitCRLF, if_neg (fun hcc => hne2 hcc.2.symm)]
      have ihh := ih h.2
      rw [List.cons_append] at ihh
      rw [ihh]

/-- CRLF framing undoes joining of newline-free lines. -/
theorem splitCRLF_joinSep (L : List Str) (hne : L ≠ [])
    (h : ∀ l ∈ L, '\n' ∉ l) :
    splitCRLF (joinSep ['\r', '\n'] L) = L := by
  induction L with
  | nil => exact absurd rfl hne
  | cons l L' ih =>
    cases L' with
    | nil =>
      show splitCRLF (joinSep ['\r', '\n'] [l]) = [l]
      rw [show joinSep ['\r', '\n'] [l] = l from rfl]
      exact splitCRLF_no_nl l (h l (List.mem_cons_self l []))
    | cons l2 L'' =>
      rw [joinSep_cons_cons, List.append_assoc]
      rw [show (['\r', '\n'] : Str) ++ joinSep ['\r', '\n'] (l2 :: L'')
          = '\r' :: '\n' :: joinSep ['\r', '\n'] (l2 :: L'') from rfl]
      rw [splitCRLF_cons_sep l _ (h l (List.mem_cons_self _ _))]
      rw [ih (List.cons_ne_nil l2 L'') (fun x hx => h x (List.mem_cons_of_mem l hx))]

/-- Marking the last element of a nonempty list. -/
theorem markLast_concat (c : Str) (mid : List Str) (l : Str) :
    markLast c (mid ++ [l]) = mid ++ [c ++ ' ' :: l] := by
  induction mid with
  | nil => rfl
  | cons m mid' ih =>
    cases mid' with
    | nil => rfl
    | cons m2 mid'' =>
      simp only [List.cons_append] at ih ⊢
      rw [markLast, ih]

/-! ### Reply-reader characterization -/

/-- Behaviour of the continuation loop on a prefix-free middle followed by a
terminator line. -/
theorem readMulti_spec (mark : Str) (mid : List Str) (l : Str) (tail : List Str)
    (h : ∀ x ∈ mid, mark.isPrefixOf x = false) :
    readMulti mark (mid ++ (mark ++ l) :: tail) = (.ok (mid ++ [l]), tail) := by
  induction mid with
  | nil =>
    show readMulti mark ((mark ++ l) :: tail) = (.ok [l], tail)
    rw [readMulti, if_pos (List.isPrefixOf_iff_prefix.2 (List.prefix_append mark l)),
      List.drop_left]
  | cons m mid' ih =>
    show readMulti mark (m :: (mid' ++ (mark ++ l) :: tail)) = (.ok (m :: (mid' ++ [l])), tail)
    rw [readMulti]
    rw [if_neg (by simp [h m (List.mem_cons_self m mid')])]
    rw [ih (fun x hx => h x (List.mem_cons_of_mem m hx))]

/-- Behaviour of `response` on a well-framed single-line reply: any parsable
three-character prefix followed by a space succeeds, with the parsed code
returned verbatim and the rest of the line as the message. -/
theorem response_single_line (s m : Str) (rest : List Str) (code : Int)
    (hlen : s.length = 3) (hcode : atoi? s = some code) :
    response ((s ++ ' ' :: m) :: rest) = (.ok ⟨code, m⟩, rest) := by
  have hlen4 : ¬ ((s ++ ' ' :: m).length < 4) := by
    rw [List.length_append, hlen, List.length_cons]; omega
  have htake : (s ++ ' ' :: m).take 3 = s := List.take_left' hlen
  have hdrop : (s ++ ' ' :: m).drop 3 = ' ' :: m := List.drop_left' hlen
  have hd4 : (s ++ ' ' :: m).drop 4 = m := by
    have h34 := List.drop_drop 1 3 (s ++ ' ' :: m)
    rw [show (3 : Nat) + 1 = 4 from rfl] at h34
    rw [← h34, hdrop]
    rfl
  simp only [response, if_neg hlen4, htake, hcode, hdrop, List.head?_cons, hd4]
  rw [if_neg (by decide : ¬ ((some ' ' : Option Char) = some '-')), if_pos trivial]

/-- Behaviour of `response` on a multi-line reply: the first line's remainder
after `"<code>-"` starts the message, prefix-free continuation lines are
appended unmodified, the first line bearing the `"<code> "` prefix terminates
the reply contributing its remainder, and the pieces are joined with LF. -/
theorem response_multi (code : Int) (h1 : 100 ≤ code) (h2 : code ≤ 999)
    (first l : Str) (mid tail : List Str)
    (hmid : ∀ x ∈ mid, (itoa code ++ [' ']).isPrefixOf x = false) :
    response ((itoa code ++ '-' :: first) :: (mid ++ (itoa code ++ ' ' :: l) :: tail))
      = (.ok ⟨code, joinSep ['\n'] (first :: (mid ++ [l]))⟩, tail) := by
  have hilen := itoa_length code h1 h2
  have hlen4 : ¬ ((itoa code ++ '-' :: first).length < 4) := by
    rw [List.length_append, hilen, List.length_cons]; omega
  have htake : (itoa code ++ '-' :: first).take 3 = itoa code := List.take_left' hilen
  have hdrop : (itoa code ++ '-' :: first).drop 3 = '-' :: first := List.drop_left' hilen
  have hd4 : (itoa code ++ '-' :: first).drop 4 = first := by
    have h34 := List.drop_drop 1 3 (itoa code ++ '-' :: first)
    rw [show (3 : Nat) + 1 = 4 from rfl] at h34
    rw [← h34, hdrop]
    rfl
  have hterm : (itoa code ++ [' ']) ++ l = itoa code ++ ' ' :: l := by
    rw [List.append_assoc]
    rfl
  have hrm : readMulti (itoa code ++ [' ']) (mid ++ (itoa code ++ ' ' :: l) :: tail)
      = (.ok (mid ++ [l]), tail) := by
    rw [← hterm]
    exact readMulti_spec _ mid l tail hmid
  simp only [response, if_neg hlen4, htake, atoi?_itoa code h1 h2, hdrop, List.head?_cons,
    hrm, hd4]
  rw [if_pos trivial]

/-! ### Auxiliary parse-failure lemmas -/

/-- Unfolding of `digitVal?` on a non-digit. -/
theorem digitVal?_none (ch : Char) (h : ¬ (isDigitCh ch = true)) : digitVal? ch = none := by
  rw [digitVal?, if_neg h]

/-- Unfolding of `digitVal?` on a digit. -/
theorem digitVal?_some (ch : Char) (h : isDigitCh ch = true) :
    digitVal? ch = some (ch.toNat - '0'.toNat) := by
  rw [digitVal?, if_pos h]

/-- A two-character string that is not all digits fails to parse. -/
theorem parseDigits_pair_none (b c : Char)
    (h : ¬ (isDigitCh b = true ∧ isDigitCh c = true)) :
    parseDigits [b, c] = none := by
  by_cases hb : isDigitCh b = true
  · have hc : ¬ (isDigitCh c = true) := fun hc => h ⟨hb, hc⟩
    simp only [parseDigits, parseDigitsAux, digitVal?_some b hb, digitVal?_none c hc]
  · simp only [parseDigits, parseDigitsAux, digitVal?_none b hb]

/-- A three-character string that is neither all digits nor a sign followed
by two digits is rejected by `strconv.Atoi`. -/
theorem atoi?_three_none (a b c : Char)
    (hdig : ¬ (isDigitCh a = true ∧ isDigitCh b = true ∧ isDigitCh c = true))
    (hsign : ¬ ((a = '+' ∨ a = '-') ∧ isDigitCh b = true ∧ isDigitCh c = true)) :
    atoi? [a, b, c] = none := by
  by_cases ha : a = '-'
  · have hbc : ¬ (isDigitCh b = true ∧ isDigitCh c = true) :=
      fun hbc => hsign ⟨Or.inr ha, hbc.1, hbc.2⟩
    simp only [atoi?, if_pos ha, parseDigits_pair_none b c hbc]
  · by_cases hp : a = '+'
    · have hbc : ¬ (isDigitCh b = true ∧ isDigitCh c = true) :=
        fun hbc => hsign ⟨Or.inl hp, hbc.1, hbc.2⟩
      simp only [atoi?, if_neg ha, if_pos hp, parseDigits_pair_none b c hbc]
    · have hnone : parseDigits [a, b, c] = none := by
        by_cases haa : isDigitCh a = true
        · by_cases hb : isDigitCh b = true
          · have hc : ¬ (isDigitCh c = true) := fun hc => hdig ⟨haa, hb, hc⟩
            simp only [parseDigits, parseDigitsAux, digitVal?_some a haa,
              digitVal?_some b hb, digitVal?_none c hc]
          · simp only [parseDigits, parseDigitsAux, digitVal?_some a haa,
              digitVal?_none b hb]
        · simp only [parseDigits, parseDigitsAux, digitVal?_none a haa]
      simp only [atoi?, if_neg ha, if_neg hp, hnone]

/-! ### Claim theorems -/

/-- C3: the five classification predicates of `Code` are each equivalent to
the stated condition on the truncating division `code/100`, and all five are
functions of that hundreds digit alone. -/
theorem claim_C3 :
    (∀ code : Int,
      (Code.Preliminary code = true ↔ code.tdiv 100 = 1) ∧
      (Code.Positive code = true ↔
        (code.tdiv 100 = 1 ∨ code.tdiv 100 = 2 ∨ code.tdiv 100 = 3)) ∧
      (Code.Complete code = true ↔
        (code.tdiv 100 = 2 ∨ code.tdiv 100 = 4 ∨ code.tdiv 100 = 5)) ∧
      (Code.PositiveComplete code = true ↔ code.tdiv 100 = 2) ∧
      (Code.Temporary code = true ↔ code.tdiv 100 = 4)) ∧
    (∀ c₁ c₂ : Int, c₁.tdiv 100 = c₂.tdiv 100 →
      Code.Preliminary c₁ = Code.Preliminary c₂ ∧
      Code.Positive c₁ = Code.Positive c₂ ∧
      Code.Complete c₁ = Code.Complete c₂ ∧
      Code.PositiveComplete c₁ = Code.PositiveComplete c₂ ∧
      Code.Temporary c₁ = Code.Temporary c₂) := by
  constructor
  · intro code
    simp only [Code.Preliminary, Code.Positive, Code.Complete, Code.PositiveComplete,
      Code.Temporary, Bool.or_eq_true, beq_iff_eq]
    exact ⟨trivial, or_assoc, or_assoc, trivial, trivial⟩
  · intro c₁ c₂ h
    simp [Code.Preliminary, Code.Positive, Code.Complete, Code.PositiveComplete,
      Code.Temporary, h]

/-- Witness for C3 at codes 110 and 150, which share the hundreds digit. -/
theorem claim_C3_witness :
    Code.Preliminary 110 = Code.Preliminary 150 ∧
    Code.Positive 110 = Code.Positive 150 ∧
    Code.Complete 110 = Code.Complete 150 ∧
    Code.PositiveComplete 110 = Code.PositiveComplete 150 ∧
    Code.Temporary 110 = Code.Temporary 150 :=
  claim_C3.2 110 150 (by decide)

/-- C8: any input whose first line is shorter than 4 characters makes the
reply reader fail with the short-line malformed-reply error; no `Reply` is
produced and no further line is consumed. -/
theorem claim_C8 (line : Str) (rest : List Str) (h : line.length < 4) :
    response (line :: rest) = (.error .shortLine, rest) := by
  rw [response, if_pos h]

/-- Witness for C8 on the two-character line `"99"`. -/
theorem claim_C8_witness :
    response [strOf "99"] = (.error .shortLine, []) :=
  claim_C8 (strOf "99") [] (by decide)

/-- C9 as stated is false: the line `"-12 ok"` has a non-digit first
character, yet `strconv.Atoi` accepts the signed numeral `-12` and the reader
returns a successful `Reply` with code `-12`. -/
theorem claim_C9_counterexample :
    isDigitCh '-' = false ∧
    response [strOf "-12 ok"] = (.ok ⟨-12, strOf "ok"⟩, []) :=
  ⟨rfl, rfl⟩

/-- C9 (amended): a reply line of at least 4 characters whose first three
characters are neither all decimal digits nor a sign (`'+'` or `'-'`)
followed by two decimal digits makes the reader fail with the `strconv`
parse error; no `Reply` is returned as a success for such a line. -/
theorem claim_C9 (a b c : Char) (tail : Str) (rest : List Str) (htail : tail ≠ [])
    (hdig : ¬ (isDigitCh a = true ∧ isDigitCh b = true ∧ isDigitCh c = true))
    (hsign : ¬ ((a = '+' ∨ a = '-') ∧ isDigitCh b = true ∧ isDigitCh c = true)) :
    response ((a :: b :: c :: tail) :: rest) = (.error .atoiErr, rest) := by
  have hlen : ¬ ((a :: b :: c :: tail).length < 4) := by
    have := List.length_pos.2 htail
    simp only [List.length_cons]
    omega
  have htake : (a :: b :: c :: tail).take 3 = [a, b, c] := rfl
  simp only [response, if_neg hlen, htake, atoi?_three_none a b c hdig hsign]

/-- Witness for the amended C9 on the line `"x23 a"`. -/
theorem claim_C9_witness :
    response [('x' :: '2' :: '3' :: strOf " a")] = (.error .atoiErr, []) :=
  claim_C9 'x' '2' '3' (strOf " a") [] (by decide) (by decide) (by decide)

/-- C10: the reader performs no range check on the parsed code — every
well-framed single-line reply succeeds and returns the parsed code verbatim,
whatever its hundreds digit. -/
theorem claim_C10 (s m : Str) (rest : List Str) (code : Int)
    (hlen : s.length = 3) (hcode : atoi? s = some code) :
    response ((s ++ ' ' :: m) :: rest) = (.ok ⟨code, m⟩, rest) :=
  response_single_line s m rest code hlen hcode

/-- Witness for C10 on the out-of-range line `"099 x"`, which yields a
successful reply with code 99. -/
theorem claim_C10_witness :
    response [strOf "099" ++ ' ' :: strOf "x"] = (.ok ⟨99, strOf "x"⟩, []) :=
  claim_C10 (strOf "099") (strOf "x") [] 99 (by decide) (by decide)

/-- C1: for a reply whose code is a valid three-digit reply code and whose
message lines nowhere contain the reply's own code followed by a space,
rendering to wire text, splitting the text on CRLF, and reading it back
reconstructs the original reply exactly (consuming all lines). -/
theorem claim_C1 (r : Reply) (h1 : 100 ≤ r.code) (h2 : r.code ≤ 599)
    (hmsg : ∀ l ∈ splitOnChar '\n' r.msg, ¬ (itoa r.code ++ [' ']) <:+: l) :
    response (splitCRLF (replyString r)) = (.ok r, []) := by
  have h999 : r.code ≤ 999 := by omega
  by_cases hnl : '\n' ∈ r.msg
  · have hlen2 : 1 < (splitOnChar '\n' r.msg).length :=
      splitOnChar_length_two '\n' r.msg hnl
    rcases hl : splitOnChar '\n' r.msg with _ | ⟨l0, rest0⟩
    · exact absurd hl (splitOnChar_ne_nil _ _)
    · rcases List.eq_nil_or_concat rest0 with h0 | ⟨mid, ln, hmid0⟩
      · rw [hl, h0] at hlen2
        simp at hlen2
      · rw [List.concat_eq_append] at hmid0
        subst hmid0
        have hcond : 1 < ((l0 :: (mid ++ [ln])) : List Str).length := by
          simp [List.length_append]
        have hmark : markLast (itoa r.code) (l0 :: (mid ++ [ln]))
            = l0 :: (mid ++ [itoa r.code ++ ' ' :: ln]) := by
          rw [← List.cons_append, markLast_concat, List.cons_append]
        have hmempiece : ∀ x ∈ splitOnChar '\n' r.msg, '\n' ∉ x :=
          mem_splitOnChar_not_sep '\n' r.msg
        rw [hl] at hmempiece
        have hnonl : ∀ w ∈ (itoa r.code ++ '-' :: l0) :: (mid ++ [itoa r.code ++ ' ' :: ln]),
            '\n' ∉ w := by
          intro w hw
          rcases List.mem_cons.1 hw with hw1 | hw1
          · subst hw1
            intro hm
            rcases List.mem_append.1 hm with hm1 | hm1
            · exact itoa_no_nl r.code h1 h999 hm1
            · rcases List.mem_cons.1 hm1 with hm2 | hm2
              · exact absurd hm2 (by decide)
              · exact hmempiece l0 (List.mem_cons_self _ _) hm2
          · rcases List.mem_append.1 hw1 with hw2 | hw2
            · exact hmempiece w (List.mem_cons_of_mem _ (List.mem_append_left _ hw2))
            · rcases List.mem_cons.1 hw2 with hw3 | hw3
              · subst hw3
                intro hm
                rcases List.mem_append.1 hm with hm1 | hm1
                · exact itoa_no_nl r.code h1 h999 hm1
                · rcases List.mem_cons.1 hm1 with hm2 | hm2
                  · exact absurd hm2 (by decide)
                  · exact hmempiece ln
                      (List.mem_cons_of_mem _
                        (List.mem_append_right _ (List.mem_singleton.2 rfl)))
                      hm2
              · exact absurd hw3 (List.not_mem_nil w)
        have hpf : ∀ x ∈ mid, (itoa r.code ++ [' ']).isPrefixOf x = false := by
          intro x hx
          have hxl : x ∈ splitOnChar '\n' r.msg := by
            rw [hl]
            exact List.mem_cons_of_mem _ (List.mem_append_left _ hx)
          have hni := hmsg x hxl
          cases hb : (itoa r.code ++ [' ']).isPrefixOf x with
          | false => rfl
          | true => exact absurd (List.isPrefixOf_iff_prefix.1 hb).isInfix hni
        simp only [replyString]
        rw [hl, if_pos hcond, hmark]
        show response (splitCRLF (joinSep ['\r', '\n']
          ((itoa r.code ++ '-' :: l0) :: (mid ++ [itoa r.code ++ ' ' :: ln])))) = (.ok r, [])
        rw [splitCRLF_joinSep _ (List.cons_ne_nil _ _) hnonl]
        rw [response_multi r.code h1 h999 l0 ln mid [] hpf]
        have hjoin : joinSep ['\n'] (l0 :: (mid ++ [ln])) = r.msg := by
          rw [← hl]
          exact joinSep_splitOnChar '\n' r.msg
        rw [hjoin]
  · have hone : splitOnChar '\n' r.msg = [r.msg] := splitOnChar_of_not_mem '\n' r.msg hnl
    simp only [replyString]
    rw [hone, if_neg (by simp : ¬ 1 < ([r.msg] : List Str).length)]
    have hnosplit : splitCRLF (itoa r.code ++ ' ' :: r.msg)
        = [itoa r.code ++ ' ' :: r.msg] := by
      apply splitCRLF_no_nl
      intro hm
      rcases List.mem_append.1 hm with h | h
      · exact itoa_no_nl r.code h1 h999 h
      · rcases List.mem_cons.1 h with h | h
        · exact absurd h (by decide)
        · exact hnl h
    rw [hnosplit]
    exact response_single_line (itoa r.code) r.msg [] r.code
      (itoa_length r.code h1 h999) (atoi?_itoa r.code h1 h999)

/-- Witness for C1 on the two-line reply `230 "Hello\nWorld"`. -/
theorem claim_C1_witness :
    response (splitCRLF (replyString ⟨230, strOf "Hello\nWorld"⟩))
      = (.ok ⟨230, strOf "Hello\nWorld"⟩, []) :=
  claim_C1 ⟨230, strOf "Hello\nWorld"⟩ (by decide) (by decide) (by decide)

/-- C2: multi-line reconstruction — after a `"<code>-"` first line, the
reader appends prefix-free continuation lines unmodified, stops at the first
line bearing the `"<code> "` prefix (contributing its remainder as the final
message line), joins the collected lines with a single LF, and leaves the
remaining input unread; in particular the four-line example from the test
suite parses to code 123 with the expected message. -/
theorem claim_C2 :
    (∀ (code : Int) (first l : Str) (mid tail : List Str),
        100 ≤ code → code ≤ 999 →
        (∀ x ∈ mid, (itoa code ++ [' ']).isPrefixOf x = false) →
        response ((itoa code ++ '-' :: first) :: (mid ++ (itoa code ++ ' ' :: l) :: tail))
          = (.ok ⟨code, joinSep ['\n'] (first :: (mid ++ [l]))⟩, tail)) ∧
    response (splitCRLF (strOf
        "123-First line\r\nSecond line\r\n  234 A line beginning with numbers\r\n123 The last line"))
      = (.ok ⟨123, strOf
          "First line\nSecond line\n  234 A line beginning with numbers\nThe last line"⟩, []) := by
  constructor
  · intro code first l mid tail hc1 hc2 hmid
    exact response_multi code hc1 hc2 first l mid tail hmid
  · rfl

/-- Witness for the universally quantified part of C2. -/
theorem claim_C2_witness :
    response ((itoa 200 ++ '-' :: strOf "a") :: ([strOf "b"] ++ (itoa 200 ++ ' ' :: strOf "c") :: []))
      = (.ok ⟨200, joinSep ['\n'] (strOf "a" :: ([strOf "b"] ++ [strOf "c"]))⟩, []) :=
  claim_C2.1 200 (strOf "a") (strOf "c") [strOf "b"] [] (by decide) (by decide) (by decide)

/-- One PASV number: a digit group whose value is at most 255 passes through
the `Atoi`-then-`byte` conversion unchanged. -/
theorem pasvByte_eq (g : Str) (v : Nat) (hp : parseDigits g = some v) (hv : v ≤ 255) :
    pasvByte g = v := by
  have hmin : min v maxInt = v :=
    Nat.min_eq_left (le_trans hv (by norm_num [maxInt]))
  simp only [pasvByte, atoiVal, hp, hmin]
  exact Nat.mod_eq_of_lt (by omega)

/-- C4: PASV decoding — the test-suite example decodes to 192.0.2.47 port
1031; a message without the six-number pattern fails with the
"PASV reply provided no port" error; and whenever the pattern matches with
all six numbers in 0–255, the first four become the address octets and the
port is `high*256 + low`. -/
theorem claim_C4 :
    (parsePasvReply (strOf "Entering Passive Mode. 192,0,2,47,4,7")
      = .ok ⟨[192, 0, 2, 47], 1031⟩) ∧
    (∀ msg, findPasv msg = none → parsePasvReply msg = .error .pasvNoPort) ∧
    (∀ msg g1 g2 g3 g4 g5 g6 v1 v2 v3 v4 v5 v6,
      findPasv msg = some [g1, g2, g3, g4, g5, g6] →
      parseDigits g1 = some v1 → parseDigits g2 = some v2 → parseDigits g3 = some v3 →
      parseDigits g4 = some v4 → parseDigits g5 = some v5 → parseDigits g6 = some v6 →
      v1 ≤ 255 → v2 ≤ 255 → v3 ≤ 255 → v4 ≤ 255 → v5 ≤ 255 → v6 ≤ 255 →
      parsePasvReply msg = .ok ⟨[v1, v2, v3, v4], ((v5 * 256 + v6 : Nat) : Int)⟩) := by
  refine ⟨rfl, ?_, ?_⟩
  · intro msg h
    simp only [parsePasvReply, h]
  · intro msg g1 g2 g3 g4 g5 g6 v1 v2 v3 v4 v5 v6 hf hp1 hp2 hp3 hp4 hp5 hp6
      hv1 hv2 hv3 hv4 hv5 hv6
    simp only [parsePasvReply, hf, List.map, pasvByte_eq g1 v1 hp1 hv1,
      pasvByte_eq g2 v2 hp2 hv2, pasvByte_eq g3 v3 hp3 hv3, pasvByte_eq g4 v4 hp4 hv4,
      pasvByte_eq g5 v5 hp5 hv5, pasvByte_eq g6 v6 hp6 hv6]
    show Except.ok
        (⟨[v1, v2, v3, v4], ((v5 <<< 8 ||| v6 : Nat) : Int)⟩ : TCPAddr)
      = Except.ok ⟨[v1, v2, v3, v4], ((v5 * 256 + v6 : Nat) : Int)⟩
    rw [lor_byte v5 v6 (by omega)]

/-- Witness for C4: a message without the pattern errors, and a six-number
message decodes componentwise. -/
theorem claim_C4_witness :
    parsePasvReply (strOf "no numbers here") = .error .pasvNoPort ∧
    parsePasvReply (strOf "1,2,3,4,5,6") = .ok ⟨[1, 2, 3, 4], ((5 * 256 + 6 : Nat) : Int)⟩ :=
  ⟨claim_C4.2.1 (strOf "no numbers here") (by decide),
   claim_C4.2.2 (strOf "1,2,3,4,5,6") (strOf "1") (strOf "2") (strOf "3") (strOf "4")
     (strOf "5") (strOf "6") 1 2 3 4 5 6 (by decide) (by decide) (by decide) (by decide)
     (by decide) (by decide) (by decide) (by decide) (by decide) (by decide) (by decide)
     (by decide) (by decide)⟩

/-- C5: EPSV decoding — the test-suite example decodes to port 1031; a
missing `"(|||"` delimiter, a missing `"|)"` delimiter, or an end delimiter
not strictly after the start delimiter all yield the
"EPSV reply provided no port" error; and the host of the resulting address
is always the control connection's remote IP, never taken from the body. -/
theorem claim_C5 :
    (parseEpsvReply (strOf "Entering Extended Passive Mode. (|||1031|)") = .ok 1031) ∧
    (∀ msg, lastIndexOf epsvStart msg = none →
      parseEpsvReply msg = .error .epsvNoPort) ∧
    (∀ msg s0, lastIndexOf epsvStart msg = some s0 → lastIndexOf epsvEnd msg = none →
      parseEpsvReply msg = .error .epsvNoPort) ∧
    (∀ msg s0 e, lastIndexOf epsvStart msg = some s0 → lastIndexOf epsvEnd msg = some e →
      e ≤ s0 + 4 → parseEpsvReply msg = .error .epsvNoPort) ∧
    (∀ (remoteIP : List Nat) msg port, parseEpsvReply msg = .ok port →
      epsvAddr remoteIP msg = .ok ⟨remoteIP, port⟩) := by
  refine ⟨rfl, ?_, ?_, ?_, ?_⟩
  · intro msg h
    simp only [parseEpsvReply, h]
  · intro msg s0 h1 h2
    simp only [parseEpsvReply, h1, h2]
  · intro msg s0 e h1 h2 hle
    simp only [parseEpsvReply, h1, h2]
    rw [if_pos (show e ≤ s0 + epsvStart.length from hle)]
  · intro remoteIP msg port h
    simp only [epsvAddr, h]

/-- Witness for C5: both missing-delimiter shapes, an inverted pair, and the
host-from-remote-address rule at the example body. -/
theorem claim_C5_witness :
    parseEpsvReply (strOf "no delimiters") = .error .epsvNoPort ∧
    parseEpsvReply (strOf "(|||x") = .error .epsvNoPort ∧
    parseEpsvReply (strOf "|)(|||") = .error .epsvNoPort ∧
    epsvAddr [192, 0, 2, 1] (strOf "Entering Extended Passive Mode. (|||1031|)")
      = .ok ⟨[192, 0, 2, 1], 1031⟩ :=
  ⟨claim_C5.2.1 (strOf "no delimiters") (by decide),
   claim_C5.2.2.1 (strOf "(|||x") 0 (by decide) (by decide),
   claim_C5.2.2.2.1 (strOf "|)(|||") 2 0 (by decide) (by decide) (by decide),
   claim_C5.2.2.2.2 [192, 0, 2, 1] _ 1031 claim_C5.1⟩

/-- C6: once the `TYPE` round trip has succeeded with a positive-complete
reply and the passive data connection is open, the transfer command's reply
must be positive (not necessarily complete): a transport failure or a
non-positive reply closes the just-opened data socket before the error is
returned, while a positive reply hands the open socket to the caller. -/
theorem claim_C6 (env : TransferEnv) (r1 : Reply)
    (htype : env.typeReply = .ok r1) (hpc : r1.positiveComplete = true)
    (hopen : env.passiveOpen = .ok ()) :
    (∀ e, env.cmdReply = .error e →
      transfer env = ⟨.error (.io e), true, true⟩) ∧
    (∀ r2, env.cmdReply = .ok r2 → r2.positive = false →
      transfer env = ⟨.error (.reply r2), true, true⟩) ∧
    (∀ r2, env.cmdReply = .ok r2 → r2.positive = true →
      transfer env = ⟨.ok (), true, false⟩) := by
  refine ⟨?_, ?_, ?_⟩
  · intro e hcmd
    simp [transfer, htype, hpc, hopen, hcmd]
  · intro r2 hcmd hpos
    simp [transfer, htype, hpc, hopen, hcmd, hpos]
  · intro r2 hcmd hpos
    simp [transfer, htype, hpc, hopen, hcmd, hpos]

/-- Witness for C6: `TYPE` accepted (200), passive open, transfer command
refused with 550 — the opened data socket is closed and the reply is the
error. -/
theorem claim_C6_witness :
    transfer ⟨.ok ⟨200, []⟩, .ok (), .ok ⟨550, []⟩⟩
      = ⟨.error (.reply ⟨550, []⟩), true, true⟩ :=
  (claim_C6 ⟨.ok ⟨200, []⟩, .ok (), .ok ⟨550, []⟩⟩ ⟨200, []⟩ rfl (by decide) rfl).2.1
    ⟨550, []⟩ rfl (by decide)

/-- C7 as stated is false: when the data-socket close fails, `Close` returns
only the socket-close error and performs no confirmation `ReadReply` at all
— the pending control-channel line is left unconsumed, so the confirmation
failure is not surfaced alongside it. -/
theorem claim_C7_counterexample :
    transferConnClose (.error ⟨0⟩) [strOf "500 bad"]
      = (.error (.socket ⟨0⟩), [strOf "500 bad"]) := rfl

/-- C7 (amended): if the socket close fails, `Close` fails with that error
immediately and reads nothing; otherwise it performs exactly one more
`ReadReply`, failing with the confirmation `Reply` when it is not
positive-complete (even though the socket is already closed), failing with
the read error when the read fails, and succeeding otherwise. -/
theorem claim_C7 :
    (∀ (e : IOErr) (input : List Str),
      transferConnClose (.error e) input = (.error (.socket e), input)) ∧
    (∀ (input rest : List Str) (reply : Reply),
      response input = (.ok reply, rest) → reply.positiveComplete = false →
      transferConnClose (.ok ()) input = (.error (.reply reply), rest)) ∧
    (∀ (input rest : List Str) (reply : Reply),
      response input = (.ok reply, rest) → reply.positiveComplete = true →
      transferConnClose (.ok ()) input = (.ok (), rest)) ∧
    (∀ (input rest : List Str) (e : FtpError),
      response input = (.error e, rest) →
      transferConnClose (.ok ()) input = (.error (.proto e), rest)) := by
  refine ⟨?_, ?_, ?_, ?_⟩
  · intro e input
    rfl
  · intro input rest reply hr hpc
    simp [transferConnClose, hr, hpc]
  · intro input rest reply hr hpc
    simp [transferConnClose, hr, hpc]
  · intro input rest e hr
    simp [transferConnClose, hr]

/-- Witness for the amended C7: a positive-complete confirmation closes
cleanly, and a 550 confirmation turns the close into a failure even though
the socket closed fine. -/
theorem claim_C7_witness :
    transferConnClose (.ok ()) [strOf "226 Done"] = (.ok (), []) ∧
    transferConnClose (.ok ()) [strOf "550 Oops"]
      = (.error (.reply ⟨550, strOf "Oops"⟩), []) :=
  ⟨claim_C7.2.2.1 [strOf "226 Done"] [] ⟨226, strOf "Done"⟩ rfl (by decide),
   claim_C7.2.1 [strOf "550 Oops"] [] ⟨550, strOf "Oops"⟩ rfl (by decide)⟩
